import Mathlib

/-!
The image assembly pipeline of moby (`src/moby/main.go`).

A shallow embedding of `untarKernel`, `containersInitrd`, `build`, `run` and
`main`, and the properties of the specification checked against it.

Conventions of the embedding.

* A `*bytes.Buffer` is the list of bytes it holds; a nil pointer is `none`.
* The `archive/tar` reader over a buffer is the sequence of results its
  `Next` calls give: the entries in stream order, then `io.EOF` or an error.
* Everything the process does to the outside (files, external commands,
  process replacement) is answered by a `World` and recorded, in order, in a
  list of `Event`s.
* `log.Fatal*` ends the process; so does a run-time panic and a successful
  `syscall.Exec`. Together with a normal return these are the `Outcome`s.
* Package `pkg/initrd` is not among the sources; its writer is modelled from
  the specification (`initrdNewWriter`, `initrdCopy`, `initrdClose`).
-/

namespace Moby

/-- One byte of a buffer. -/
abbrev Byte := Fin 256

/-- The contents of a `bytes.Buffer`. -/
abbrev Bytes := List Byte

/-! ## The composite archive stream read by `untarKernel` -/

/-- One entry of a tar stream as `tr.Next()` followed by `io.Copy(_, tr)` sees
it: the header name, the bytes a copy of the entry delivers, and the error that
copy ends with (`none`: the copy reaches the end of the entry). -/
structure Entry where
  name : String
  content : Bytes
  copyErr : Option String
deriving DecidableEq, Repr

/-- A tar stream: the entries `tr.Next()` yields, in order, and how the
sequence ends (`none`: `io.EOF`; `some e`: `Next` returns the error `e`). -/
structure TarStream where
  entries : List Entry
  nextErr : Option String
deriving DecidableEq, Repr

/-- A well-formed stream: no entry fails to copy and the stream ends in
`io.EOF`. -/
def TarStream.wellFormed (s : TarStream) : Prop :=
  s.nextErr = none ∧ ∀ e ∈ s.entries, e.copyErr = none

instance (s : TarStream) : Decidable s.wellFormed := by
  unfold TarStream.wellFormed; exact inferInstance

/-- The ways a call of `untarKernel` ends. -/
inductive UntarResult where
  /-- Line 76: `return bzimage, ktar, nil`. -/
  | ok (bzimage ktar : Bytes)
  /-- Lines 59, 65 and 73: `return nil, nil, err`. -/
  | err (e : String)
  /-- Line 52: `log.Fatalln(err)` after a failing `tr.Next()`; the process exits. -/
  | fatal (e : String)
  /-- Line 63 with `bzimage == nil`: `io.Copy(bzimage, tr)` calls
  `(*bytes.Buffer).ReadFrom` on the nil receiver, which dereferences it, and
  the process panics. -/
  | panic
deriving DecidableEq, Repr

/-- The text of the error of line 73. -/
def missingEntries : String := "did not find bzImage and kernel.tar in tarball"

/-- The `for` loop of `untarKernel` (lines 46-70) and the code after it
(lines 72-76), over the entries still to come; `bzimage` and `ktar` are the two
local pointers (`none`: nil). -/
def untarLoop (bzimageName ktarName : String) (nextErr : Option String) :
    List Entry → Option Bytes → Option Bytes → UntarResult
  | [], bzimage, ktar =>
    match nextErr with
    | some e => .fatal e                       -- line 52
    | none =>                                  -- line 49: break
      match ktar, bzimage with
      | some k, some b => .ok b k              -- line 76
      | _, _ => .err missingEntries            -- line 73
  | hdr :: rest, bzimage, ktar =>
    if hdr.name = bzimageName then
      -- lines 56-57: bzimage = new(bytes.Buffer); io.Copy(bzimage, tr)
      match hdr.copyErr with
      | some e => .err e                       -- line 59
      | none => untarLoop bzimageName ktarName nextErr rest (some hdr.content) ktar
    else if hdr.name = ktarName then
      -- lines 62-63: ktar = new(bytes.Buffer); io.Copy(bzimage, tr)
      match bzimage with
      | none => .panic
      | some b =>
        match hdr.copyErr with
        | some e => .err e                     -- line 65
        | none =>
          untarLoop bzimageName ktarName nextErr rest (some (b ++ hdr.content)) (some [])
    else
      -- line 68: continue
      untarLoop bzimageName ktarName nextErr rest bzimage ktar

/-- The function `untarKernel` (lines 41-77): both pointers start nil. -/
def untarKernel (buf : TarStream) (bzimageName ktarName : String) : UntarResult :=
  untarLoop bzimageName ktarName buf.nextErr buf.entries none none

/-- The number of entries of a stream carrying a given name. -/
def countNamed (n : String) (es : List Entry) : Nat :=
  (es.filter (fun e => e.name = n)).length

/-- The stream with every entry named neither `bzimageName` nor `ktarName`
removed. -/
def dropOthers (buf : TarStream) (bzimageName ktarName : String) : TarStream :=
  { entries := buf.entries.filter (fun e => e.name = bzimageName ∨ e.name = ktarName),
    nextErr := buf.nextErr }

/-! ## The manifest (lines 18-34) -/

/-- One element of the field `System` of `moby`. -/
structure SystemSpec where
  Name : String
  Image : String
  CapDrop : List String
  CapAdd : List String
  Bind : String
  OomScoreAdj : Int
  Command : List String
deriving DecidableEq, Repr

/-- One element of the field `Database` of `moby`. -/
structure DatabaseSpec where
  File : String
  Value : String
deriving DecidableEq, Repr

/-- The struct `moby`. -/
structure moby where
  Kernel : String
  Init : String
  System : List SystemSpec
  Database : List DatabaseSpec
deriving DecidableEq, Repr

/-- The constant `riddler` (line 37). -/
def riddler : String :=
  "mobylinux/riddler:7d4545d8b8ac2700971a83f12a3446a76db28c14@sha256:11b7310df6482fc38aa52b419c2ef1065d7b9207c633d47554e13aa99f6c0b72"

/-- The constant `docker2tar` (line 38). -/
def docker2tar : String :=
  "mobylinux/docker2tar:82a3f11f70b2959c7100dd6e184b511ebfc65908@sha256:e4fd36febc108477a2e5316d263ac257527779409891c7ac10d455a162df05c1"

/-- The constant `bzimageName` of `build` (line 118). -/
def bzimageName : String := "bzImage"

/-- The constant `ktarName` of `build` (line 119). -/
def ktarName : String := "kernel.tar"

/-! ## The outside world, events and process steps -/

/-- What the process does to the outside, and its calls into package
`initrd`. -/
inductive Event where
  /-- A call `ioutil.ReadFile(name)`. -/
  | readFile (name : String)
  /-- A call `exec.LookPath(file)`. -/
  | lookPath (file : String)
  /-- A call `exec.Command(path, args...).Output()`. -/
  | output (path : String) (args : List String)
  /-- A call `initrd.Copy(iw, file)`. -/
  | copy (file : Bytes)
  /-- A call `ioutil.WriteFile(name, data, perm)`. -/
  | writeFile (name : String) (data : Bytes) (perm : Nat)
  /-- A call `syscall.Exec(argv0, argv, envv)`. -/
  | exec (argv0 : String) (argv envv : List String)
deriving DecidableEq, Repr

/-- The answers of the outside world. The answer to an external command
depends on its path and arguments only. -/
structure World where
  /-- For `ioutil.ReadFile`: the file's bytes or an error. -/
  readFile : String → Except String Bytes
  /-- For `yaml.Unmarshal` into a zero `moby`: the decoded manifest or an error. -/
  unmarshal : Bytes → Except String moby
  /-- For `exec.LookPath`: the path found or an error. -/
  lookPath : String → Except String String
  /-- For `cmd.Output()`: the captured standard output or an error. -/
  output : String → List String → Except String Bytes
  /-- The reader `tar.NewReader` gives over a buffer holding these bytes. -/
  tarReader : Bytes → TarStream
  /-- The error, if any, with which `initrd.Copy` of a buffer holding these
  bytes fails. -/
  copyFault : Bytes → Option String
  /-- For `ioutil.WriteFile`: the error, if any. -/
  writeFile : String → Bytes → Nat → Option String
  /-- The value of `os.Environ()`. -/
  environ : List String
  /-- For `syscall.Exec`: `none` when the process image is replaced (the call does
  not return), `some e` when it returns the error `e`. -/
  exec : String → List String → List String → Option String

/-- How a piece of the program ends. -/
inductive Outcome (α : Type) where
  /-- It returns normally with a value. -/
  | ret (a : α)
  /-- By `log.Fatal*`: the message is logged and the process exits. -/
  | fatal (msg : String)
  /-- A run-time panic ends the process. -/
  | panic
  /-- The process image was replaced by `syscall.Exec`. -/
  | replaced
deriving DecidableEq, Repr

/-- A piece of the program run to its end: the events it caused, in order,
and how it ended. -/
structure Step (α : Type) where
  trace : List Event
  outcome : Outcome α
deriving DecidableEq, Repr

/-- Sequencing: the second piece runs only when the first returns. -/
def Step.bind {α β : Type} (x : Step α) (f : α → Step β) : Step β :=
  match x.outcome with
  | .ret a => ⟨x.trace ++ (f a).trace, (f a).outcome⟩
  | .fatal msg => ⟨x.trace, .fatal msg⟩
  | .panic => ⟨x.trace, .panic⟩
  | .replaced => ⟨x.trace, .replaced⟩

instance : Monad Step where
  pure a := ⟨[], .ret a⟩
  bind := Step.bind

/-- One event, answered with `a`. -/
def Step.emit {α : Type} (e : Event) (a : α) : Step α := ⟨[e], .ret a⟩

/-- The calls `log.Fatalf` and `log.Fatalln`. -/
def Step.fatalf {α : Type} (msg : String) : Step α := ⟨[], .fatal msg⟩

/-- The file permission `0644`. -/
def perm0644 : Nat := 0o644

/-! ## `containersInitrd` (lines 79-91) -/

/-- Modelled from the spec: `initrd.NewWriter` of package `pkg/initrd`, which
is not among the sources. The spec (4.4) has the assembler add no wrapping
header, so a new writer leaves the underlying buffer as it is. -/
def initrdNewWriter (w : Bytes) : Bytes := w

/-- Modelled from the spec: `initrd.Copy` of package `pkg/initrd`, which is not
among the sources. The spec (4.4) has each constituent's raw bytes copied
faithfully and back-to-back, with no padding; a copy may fail, and then returns
its error. `fault` tells which copies fail. -/
def initrdCopy (fault : Bytes → Option String) (iw file : Bytes) : Except String Bytes :=
  match fault file with
  | some e => .error e
  | none => .ok (iw ++ file)

/-- Modelled from the spec: `Close` of the writer of package `pkg/initrd`,
which is not among the sources. The spec (4.4, 8) has no framing added, so
closing writes nothing. -/
def initrdClose (iw : Bytes) : Bytes := iw

/-- The `for` loop of `containersInitrd` (lines 83-88) over the buffers still
to come; `iw` is what has been written so far. The result is the calls of
`initrd.Copy` made, and either the error returned at line 86 or the final
contents. -/
def containersInitrdLoop (fault : Bytes → Option String) :
    List Bytes → Bytes → List Event × Except String Bytes
  | [], iw => ([], .ok iw)
  | file :: rest, iw =>
    match initrdCopy fault iw file with
    | .error e => ([Event.copy file], .error e)          -- line 86: return nil, err
    | .ok iw' =>
      let r := containersInitrdLoop fault rest iw'
      (Event.copy file :: r.1, r.2)

/-- The function `containersInitrd`: `.error e` is `return nil, err`, `.ok w`
is `return w, nil` (with the deferred `iw.Close()` applied to the buffer `w`
points to). -/
def containersInitrd (fault : Bytes → Option String) (containers : List Bytes) :
    List Event × Except String Bytes :=
  let w : Bytes := []
  let iw := initrdNewWriter w
  let r := containersInitrdLoop fault containers iw
  (r.1, r.2.map initrdClose)

/-- Cut a buffer at the given segment lengths, in order. -/
def splitAtLengths : List Nat → Bytes → List Bytes
  | [], _ => []
  | n :: ns, b => b.take n :: splitAtLengths ns (b.drop n)

/-! ## `build` (lines 93-183) -/

/-- The arguments of the kernel invocation (line 121). -/
def kernelArgs (m : moby) : List String :=
  ["run", "--rm", m.Kernel, "tar", "cf", "-", bzimageName, ktarName]

/-- The arguments of the init invocation (line 135). -/
def initArgs (m : moby) : List String :=
  ["run", "--rm", "-v", "/var/run/docker.sock:/var/run/docker.sock", docker2tar, m.Init]

/-- The arguments of the invocation for one system service (lines 146-157). -/
def systemArgs (image : SystemSpec) : List String :=
  let args := ["run", "--rm", "-v", "/var/run/docker.sock:/var/run/docker.sock", riddler,
    image.Image, "/containers/" ++ image.Name]
  let args := image.CapDrop.foldl (fun args cap => args ++ ["--cap-drop", cap]) args
  let args := image.CapAdd.foldl (fun args cap => args ++ ["--cap-add", cap]) args
  let args := args ++ [image.Image]
  args ++ image.Command

/-- The loop over `m.System` (lines 144-167): `containers` is the slice built
so far. -/
def systemLoop (w : World) (docker : String) : List SystemSpec → List Bytes → Step (List Bytes)
  | [], containers => pure containers
  | image :: rest, containers => do
    let out ← Step.emit (.output docker (systemArgs image)) (w.output docker (systemArgs image))
    match out with
    | .error err => Step.fatalf ("Failed to build container tarball: " ++ err)
    | .ok out => systemLoop w docker rest (containers ++ [out])

/-- Lines 94-167 of `build`: everything up to the call of `containersInitrd`.
It returns the buffer `bzimage` and the slice `containers`. -/
def buildContainers (w : World) : Step (Bytes × List Bytes) := do
  let config ← Step.emit (.readFile "moby.yaml") (w.readFile "moby.yaml")
  match config with
  | .error err => Step.fatalf ("Cannot open config file: " ++ err)
  | .ok config =>
  match w.unmarshal config with
  | .error err => Step.fatalf ("Yaml parse error: " ++ err)
  | .ok m =>
  let docker ← Step.emit (.lookPath "docker") (w.lookPath "docker")
  match docker with
  | .error _ => Step.fatalf "Docker does not seem to be installed"
  | .ok docker =>
  let containers : List Bytes := []
  let out ← Step.emit (.output docker (kernelArgs m)) (w.output docker (kernelArgs m))
  match out with
  | .error _ => Step.fatalf "Failed to extract kernel image and tarball"
  | .ok out =>
  match untarKernel (w.tarReader out) bzimageName ktarName with
  | .fatal e => Step.fatalf e
  | .panic => ⟨[], .panic⟩
  | .err _ => Step.fatalf "Could not extract bzImage and kernel filesystem from tarball"
  | .ok bzimage ktar =>
  let containers := containers ++ [ktar]
  let init ← Step.emit (.output docker (initArgs m)) (w.output docker (initArgs m))
  match init with
  | .error err => Step.fatalf ("Failed to build init tarball: " ++ err)
  | .ok init =>
  let containers := containers ++ [init]
  let containers ← systemLoop w docker m.System containers
  pure (bzimage, containers)

/-- Lines 169-182 of `build`: assemble the initrd and write the two files. -/
def buildWrite (w : World) (bzimage : Bytes) (containers : List Bytes) : Step Unit :=
  let r := containersInitrd w.copyFault containers
  match r.2 with
  | .error err => ⟨r.1, .fatal ("Failed to make initrd " ++ err)⟩
  | .ok initrd => do
    let _ ← (⟨r.1, .ret ()⟩ : Step Unit)
    let err ← Step.emit (.writeFile "initrd.img" initrd perm0644)
      (w.writeFile "initrd.img" initrd perm0644)
    match err with
    | some err => Step.fatalf ("could not write initrd: " ++ err)
    | none =>
    let err ← Step.emit (.writeFile "bzImage" bzimage perm0644)
      (w.writeFile "bzImage" bzimage perm0644)
    match err with
    | some err => Step.fatalf ("could not write kernel: " ++ err)
    | none => pure ()

/-- The function `build`. -/
def build (w : World) : Step Unit := do
  let (bzimage, containers) ← buildContainers w
  buildWrite w bzimage containers

/-! ## `run` and `main` (lines 185-200) -/

/-- The function `run`. -/
def run (w : World) : Step Unit :=
  let env := w.environ
  let args : List String := []
  match w.exec "./hyperkit.sh" args env with
  | none => ⟨[.exec "./hyperkit.sh" args env], .replaced⟩
  | some _ => ⟨[.exec "./hyperkit.sh" args env], .fatal "Could not run"⟩

/-- The function `main`, on the argument vector `os.Args`. -/
def main (w : World) (osArgs : List String) : Step Unit := do
  if 2 ≤ osArgs.length ∧ osArgs[1]? = some "run" then
    run w
  build w

/-- An event of the build pipeline: anything but `syscall.Exec`. -/
def Event.isBuild : Event → Bool
  | .exec _ _ _ => false
  | _ => true

/-- An event of `run`: the call of `syscall.Exec`. -/
def Event.isExec : Event → Bool
  | .exec _ _ _ => true
  | _ => false

/-- An event of lines 94-167 of `build`: reading a file, looking up a path or
running an external command. -/
def Event.isFetch : Event → Bool
  | .readFile _ => true
  | .lookPath _ => true
  | .output _ _ => true
  | _ => false

/-- An event of lines 169-182 of `build`: a call of `initrd.Copy` or the
writing of a file. -/
def Event.isStore : Event → Bool
  | .copy _ => true
  | .writeFile _ _ _ => true
  | _ => false

/-- The buffer copied, for a call of `initrd.Copy`. -/
def Event.copied : Event → Option Bytes
  | .copy file => some file
  | _ => none

/-- The stream the invocation for one system service yields (empty when the
invocation fails). -/
def systemStream (w : World) (docker : String) (image : SystemSpec) : Bytes :=
  match w.output docker (systemArgs image) with
  | .ok out => out
  | .error _ => []

/-- An external `docker` invocation: the arguments of a `cmd.Output()`. -/
def Event.invocation : Event → Option (String × List String)
  | .output path args => some (path, args)
  | _ => none

/-- The files written, in order. -/
def Event.written : Event → Option String
  | .writeFile name _ _ => some name
  | _ => none

/-! ## Concrete inputs -/

/-- A well-formed stream with the kernel entry first: `bzImage` holding the
bytes 1 2, then `kernel.tar` holding the byte 3. -/
def kernelFirst : TarStream :=
  ⟨[⟨"bzImage", [1, 2], none⟩, ⟨"kernel.tar", [3], none⟩], none⟩

/-- A well-formed stream with the filesystem archive first: `kernel.tar`
holding the byte 3, then `bzImage` holding the bytes 1 2. -/
def archiveFirst : TarStream :=
  ⟨[⟨"kernel.tar", [3], none⟩, ⟨"bzImage", [1, 2], none⟩], none⟩

/-- A well-formed stream with a `kernel.tar` entry and no `bzImage` entry. -/
def archiveOnly : TarStream :=
  ⟨[⟨"kernel.tar", [3], none⟩], none⟩

/-- A well-formed stream with other-named entries around the two named ones. -/
def mixedStream : TarStream :=
  ⟨[⟨"README", [9], none⟩, ⟨"bzImage", [1, 2], none⟩, ⟨"extra", [7], none⟩,
    ⟨"kernel.tar", [3], none⟩, ⟨"tail", [], none⟩], none⟩

/-- The manifest of the end-to-end scenario of the spec (section 8), with two
capabilities on the service. -/
def demoManifest : moby :=
  { Kernel := "k:v", Init := "i:v",
    System := [{ Name := "svc", Image := "s:v", CapDrop := ["ALL"], CapAdd := ["NET_ADMIN"],
                 Bind := "", OomScoreAdj := 0, Command := ["/bin/true"] }],
    Database := [] }

/-- A world in which every step of `build` succeeds on `demoManifest`: the
kernel invocation yields a buffer read as `kernelFirst`, the init invocation the
bytes 8 9 and any other invocation the byte 10. -/
def demoWorld : World where
  readFile := fun _ => .ok [0]
  unmarshal := fun _ => .ok demoManifest
  lookPath := fun _ => .ok "/usr/bin/docker"
  output := fun _ args =>
    if args = kernelArgs demoManifest then .ok [7]
    else if args = initArgs demoManifest then .ok [8, 9]
    else .ok [10]
  tarReader := fun _ => kernelFirst
  copyFault := fun _ => none
  writeFile := fun _ _ _ => none
  environ := ["HOME=/root"]
  exec := fun _ _ _ => none

/-- The world `demoWorld` except that `initrd.Copy` fails on the buffer holding
the bytes 8 9 (the init stream). -/
def faultyWorld : World :=
  { demoWorld with copyFault := fun b => if b = [8, 9] then some "read error" else none }

/-- The world `demoWorld` except that `syscall.Exec` fails. -/
def noExecWorld : World :=
  { demoWorld with exec := fun _ _ _ => some "exec format error" }

end Moby

namespace Moby

/-! ## Properties of `untarKernel` -/

/-- Entries named neither `bzimageName` nor `ktarName` leave the two pointers as
they are. -/
theorem untarLoop_skip (bz kt : String) (ne : Option String) (others rest : List Entry)
    (h : ∀ e ∈ others, e.name ≠ bz ∧ e.name ≠ kt) (b k : Option Bytes) :
    untarLoop bz kt ne (others ++ rest) b k = untarLoop bz kt ne rest b k := by
  induction others with
  | nil => rfl
  | cons e es ih =>
    have he := h e (List.mem_cons_self e es)
    have hes : ∀ x ∈ es, x.name ≠ bz ∧ x.name ≠ kt :=
      fun x hx => h x (List.mem_cons_of_mem e hx)
    simp only [List.cons_append, untarLoop, if_neg he.1, if_neg he.2]
    exact ih hes

/-- The loop gives the same result on the entries with the other-named ones
filtered out, from any state of the two pointers. -/
theorem untarLoop_filter (bz kt : String) (ne : Option String) (es : List Entry) :
    ∀ b k : Option Bytes,
      untarLoop bz kt ne es b k
        = untarLoop bz kt ne (es.filter (fun e => e.name = bz ∨ e.name = kt)) b k := by
  induction es with
  | nil => intro b k; rfl
  | cons e es ih =>
    intro b k
    by_cases h1 : e.name = bz
    · have hf : (e :: es).filter (fun e => e.name = bz ∨ e.name = kt)
          = e :: es.filter (fun e => e.name = bz ∨ e.name = kt) := by
        simp [List.filter_cons, h1]
      rw [hf]
      simp only [untarLoop, if_pos h1]
      cases e.copyErr with
      | some x => rfl
      | none => exact ih _ _
    · by_cases h2 : e.name = kt
      · have hf : (e :: es).filter (fun e => e.name = bz ∨ e.name = kt)
            = e :: es.filter (fun e => e.name = bz ∨ e.name = kt) := by
          simp [List.filter_cons, h2]
        rw [hf]
        simp only [untarLoop, if_neg h1, if_pos h2]
        cases b with
        | none => rfl
        | some b0 =>
          cases e.copyErr with
          | some x => rfl
          | none => exact ih _ _
      · have hf : (e :: es).filter (fun e => e.name = bz ∨ e.name = kt)
            = es.filter (fun e => e.name = bz ∨ e.name = kt) := by
          simp [List.filter_cons, h1, h2]
        rw [hf]
        simp only [untarLoop, if_neg h1, if_neg h2]
        exact ih _ _

/-- Once `ktar` is nil or an empty buffer it stays so: a successful return
carries an empty companion buffer. -/
theorem untarLoop_ktar_empty (bz kt : String) (ne : Option String) (es : List Entry) :
    ∀ (b k : Option Bytes) (b1 k1 : Bytes), (k = none ∨ k = some []) →
      untarLoop bz kt ne es b k = .ok b1 k1 → k1 = [] := by
  induction es with
  | nil =>
    intro b k b1 k1 hk h
    cases ne with
    | some x => simp [untarLoop] at h
    | none =>
      rcases hk with rfl | rfl
      · simp [untarLoop] at h
      · cases b with
        | none => simp [untarLoop] at h
        | some b0 =>
          simp only [untarLoop, UntarResult.ok.injEq] at h
          exact h.2.symm
  | cons e es ih =>
    intro b k b1 k1 hk h
    by_cases h1 : e.name = bz
    · simp only [untarLoop, if_pos h1] at h
      cases hc : e.copyErr with
      | some x => simp [hc] at h
      | none =>
        simp only [hc] at h
        exact ih _ _ _ _ hk h
    · by_cases h2 : e.name = kt
      · simp only [untarLoop, if_neg h1, if_pos h2] at h
        cases b with
        | none => simp at h
        | some b0 =>
          cases hc : e.copyErr with
          | some x => simp [hc] at h
          | none =>
            simp only [hc] at h
            exact ih _ _ _ _ (Or.inr rfl) h
      · simp only [untarLoop, if_neg h1, if_neg h2] at h
        exact ih _ _ _ _ hk h

/-- With no entry taking the `ktarName` case and no failing copy, the loop ends
in the missing-entry error, whatever `bzimage` is. -/
theorem untarLoop_no_ktar (bz kt : String) (es : List Entry)
    (hwf : ∀ e ∈ es, e.copyErr = none) (hk : ∀ e ∈ es, e.name ≠ kt) :
    ∀ b : Option Bytes, untarLoop bz kt none es b none = .err missingEntries := by
  induction es with
  | nil => intro b; cases b <;> rfl
  | cons e es ih =>
    intro b
    have hc := hwf e (List.mem_cons_self e es)
    have h2 := hk e (List.mem_cons_self e es)
    have ih1 := ih (fun x hx => hwf x (List.mem_cons_of_mem e hx))
      (fun x hx => hk x (List.mem_cons_of_mem e hx))
    by_cases h1 : e.name = bz
    · simp only [untarLoop, if_pos h1, hc]
      exact ih1 _
    · simp only [untarLoop, if_neg h1, if_neg h2]
      exact ih1 _

/-- On a stream without failing copies the loop returns an error only from
line 73, and then with `ktar` still nil: no entry took the `ktarName` case. -/
theorem untarLoop_err_inv (bz kt : String) (es : List Entry)
    (hwf : ∀ e ∈ es, e.copyErr = none) :
    ∀ (b k : Option Bytes) (msg : String), (k ≠ none → b ≠ none) →
      untarLoop bz kt none es b k = .err msg →
      msg = missingEntries ∧ k = none ∧ ∀ e ∈ es, e.name = bz ∨ e.name ≠ kt := by
  induction es with
  | nil =>
    intro b k msg hinv h
    cases k with
    | none =>
      cases b <;> simp [untarLoop] at h <;> simp [h]
    | some k0 =>
      cases b with
      | none => exact absurd rfl (hinv (by simp))
      | some b0 => simp [untarLoop] at h
  | cons e es ih =>
    intro b k msg hinv h
    have hc := hwf e (List.mem_cons_self e es)
    have ih1 := ih (fun x hx => hwf x (List.mem_cons_of_mem e hx))
    by_cases h1 : e.name = bz
    · simp only [untarLoop, if_pos h1, hc] at h
      obtain ⟨hm, hk, hall⟩ := ih1 _ _ _ (by simp) h
      refine ⟨hm, hk, ?_⟩
      intro x hx
      rcases List.mem_cons.mp hx with rfl | hx
      · exact Or.inl h1
      · exact hall x hx
    · by_cases h2 : e.name = kt
      · simp only [untarLoop, if_neg h1, if_pos h2] at h
        cases b with
        | none => simp at h
        | some b0 =>
          simp only [hc] at h
          obtain ⟨_, hk, _⟩ := ih1 _ _ _ (by simp) h
          simp at hk
      · simp only [untarLoop, if_neg h1, if_neg h2] at h
        obtain ⟨hm, hk, hall⟩ := ih1 _ _ _ hinv h
        refine ⟨hm, hk, ?_⟩
        intro x hx
        rcases List.mem_cons.mp hx with rfl | hx
        · exact Or.inr h2
        · exact hall x hx

/-- The part of the missing-entry behaviour the code has: on a well-formed
stream with no entry named `ktarName`, `untarKernel` returns the missing-entry
error (with nil buffers), whether or not an entry is named `bzimageName`. -/
theorem untarKernel_missing_ktar (s : TarStream) (bz kt : String) (hwf : s.wellFormed)
    (hk : ∀ e ∈ s.entries, e.name ≠ kt) :
    untarKernel s bz kt = .err missingEntries := by
  unfold untarKernel
  rw [hwf.1]
  exact untarLoop_no_ktar bz kt s.entries hwf.2 hk none

/-- On a well-formed stream an error return is the missing-entry error, and
then no entry was named `ktarName` (the names being distinct). -/
theorem untarKernel_err_only_missing (s : TarStream) (bz kt : String) (hwf : s.wellFormed)
    (hne : bz ≠ kt) (msg : String) (h : untarKernel s bz kt = .err msg) :
    msg = missingEntries ∧ ∀ e ∈ s.entries, e.name ≠ kt := by
  unfold untarKernel at h
  rw [hwf.1] at h
  obtain ⟨hm, _, hall⟩ := untarLoop_err_inv bz kt s.entries hwf.2 none none msg (by simp) h
  refine ⟨hm, fun e he hk => ?_⟩
  rcases hall e he with h1 | h2
  · exact hne (h1.symm.trans hk)
  · exact h2 hk

/-- C9: entries named neither `bzimageName` nor `ktarName` are skipped. On every
well-formed stream `untarKernel` gives the same outcome as on the stream with
all other-named entries removed; hence inserting or deleting one such entry at
any position leaves the outcome unchanged. -/
theorem untarKernel_skips_others (s : TarStream) (bz kt : String) (hwf : s.wellFormed) :
    untarKernel s bz kt = untarKernel (dropOthers s bz kt) bz kt ∧
    ∀ (front back : List Entry) (e : Entry), s.entries = front ++ back →
      e.name ≠ bz → e.name ≠ kt → e.copyErr = none →
      untarKernel ⟨front ++ e :: back, s.nextErr⟩ bz kt = untarKernel s bz kt := by
  constructor
  · exact untarLoop_filter bz kt s.nextErr s.entries none none
  · intro front back e hs h1 h2 _
    have key : ∀ l : List Entry, untarKernel ⟨l, s.nextErr⟩ bz kt
        = untarLoop bz kt s.nextErr (l.filter (fun e => e.name = bz ∨ e.name = kt)) none none :=
      fun l => untarLoop_filter bz kt s.nextErr l none none
    have hs2 : untarKernel s bz kt = untarKernel ⟨front ++ back, s.nextErr⟩ bz kt := by
      rw [← hs]
    rw [hs2, key, key]
    simp [List.filter_append, List.filter_cons, h1, h2]

/-- C10: the second matched entry is copied into the first buffer. On a
well-formed stream with one `bzimageName` entry holding `K`, followed (possibly
after other-named entries) by one `ktarName` entry holding `T`, `untarKernel`
returns `K ++ T` as first buffer and an empty companion buffer; and every
successful return of `untarKernel` carries a companion buffer of length 0. -/
theorem untarKernel_copy_target (s : TarStream) (bz kt : String) :
    (∀ (front mid back : List Entry) (K T : Bytes),
      s.wellFormed →
      s.entries = front ++ ⟨bz, K, none⟩ :: (mid ++ ⟨kt, T, none⟩ :: back) →
      (∀ e ∈ front ++ mid ++ back, e.name ≠ bz ∧ e.name ≠ kt) →
      countNamed bz s.entries = 1 → countNamed kt s.entries = 1 →
      untarKernel s bz kt = .ok (K ++ T) []) ∧
    (∀ b k : Bytes, untarKernel s bz kt = .ok b k → k.length = 0) := by
  constructor
  · intro front mid back K T hwf hs hothers hone _
    have hne : kt ≠ bz := by
      intro heq
      subst heq
      rw [hs] at hone
      simp [countNamed, List.filter_append, List.filter_cons] at hone
      omega
    have hf : ∀ e ∈ front, e.name ≠ bz ∧ e.name ≠ kt :=
      fun e he => hothers e (by simp [he])
    have hm : ∀ e ∈ mid, e.name ≠ bz ∧ e.name ≠ kt :=
      fun e he => hothers e (by simp [he])
    have hb : ∀ e ∈ back, e.name ≠ bz ∧ e.name ≠ kt :=
      fun e he => hothers e (by simp [he])
    unfold untarKernel
    rw [hs, hwf.1, untarLoop_skip bz kt none front _ hf]
    simp only [untarLoop, if_true]
    rw [untarLoop_skip bz kt none mid _ hm]
    simp only [untarLoop, if_neg hne, if_true]
    have := untarLoop_skip bz kt none back [] hb (some (K ++ T)) (some [])
    rw [List.append_nil] at this
    rw [this]
    rfl
  · intro b k h
    have := untarLoop_ktar_empty bz kt s.nextErr s.entries none none b k (Or.inl rfl) h
    simp [this]

/-- Witness of C9 on `mixedStream`: removing its three other-named entries, or
inserting a further one, leaves the outcome unchanged. -/
theorem untarKernel_skips_others_witness :
    mixedStream.wellFormed ∧
    untarKernel mixedStream "bzImage" "kernel.tar"
      = untarKernel (dropOthers mixedStream "bzImage" "kernel.tar") "bzImage" "kernel.tar" ∧
    untarKernel ⟨[⟨"README", [9], none⟩, ⟨"bzImage", [1, 2], none⟩] ++ ⟨"notes", [4], none⟩ ::
        [⟨"extra", [7], none⟩, ⟨"kernel.tar", [3], none⟩, ⟨"tail", [], none⟩],
        mixedStream.nextErr⟩ "bzImage" "kernel.tar"
      = untarKernel mixedStream "bzImage" "kernel.tar" :=
  ⟨by decide,
   (untarKernel_skips_others mixedStream "bzImage" "kernel.tar" (by decide)).1,
   (untarKernel_skips_others mixedStream "bzImage" "kernel.tar" (by decide)).2
     [⟨"README", [9], none⟩, ⟨"bzImage", [1, 2], none⟩]
     [⟨"extra", [7], none⟩, ⟨"kernel.tar", [3], none⟩, ⟨"tail", [], none⟩]
     ⟨"notes", [4], none⟩ rfl (by decide) (by decide) rfl⟩

/-- Witness of C10 on `mixedStream`: the first buffer is 1 2 3 and the
companion buffer is empty. -/
theorem untarKernel_copy_target_witness :
    mixedStream.wellFormed ∧
    countNamed "bzImage" mixedStream.entries = 1 ∧
    countNamed "kernel.tar" mixedStream.entries = 1 ∧
    untarKernel mixedStream "bzImage" "kernel.tar" = .ok ([1, 2] ++ [3]) [] ∧
    ([] : Bytes).length = 0 :=
  ⟨by decide, by decide, by decide,
   (untarKernel_copy_target mixedStream "bzImage" "kernel.tar").1
     [⟨"README", [9], none⟩] [⟨"extra", [7], none⟩] [⟨"tail", [], none⟩] [1, 2] [3]
     (by decide) rfl (by decide) (by decide) (by decide),
   (untarKernel_copy_target mixedStream "bzImage" "kernel.tar").2 [1, 2, 3] [] (by decide)⟩

/-- C1 at the failing input `kernelFirst` (one `bzImage` entry holding 1 2, one
`kernel.tar` entry holding 3): the code returns 1 2 3 as kernel binary and an
empty companion archive, not the two entry contents. -/
theorem untarKernel_named_buffers_diverge :
    kernelFirst.wellFormed ∧
    countNamed "bzImage" kernelFirst.entries = 1 ∧
    countNamed "kernel.tar" kernelFirst.entries = 1 ∧
    untarKernel kernelFirst "bzImage" "kernel.tar" = .ok [1, 2, 3] [] ∧
    untarKernel kernelFirst "bzImage" "kernel.tar" ≠ .ok [1, 2] [3] := by
  decide

/-- C2 at the failing inputs: both entries are non-empty, yet with the kernel
entry first (`kernelFirst`) the companion buffer returned is empty, and with
the filesystem archive first (`archiveFirst`) the call does not return at all:
it panics on the nil `bzimage`. -/
theorem untarKernel_nonempty_buffers_diverge :
    (∀ e ∈ kernelFirst.entries ++ archiveFirst.entries, e.content ≠ []) ∧
    (∃ b, untarKernel kernelFirst "bzImage" "kernel.tar" = .ok b [] ∧ b ≠ []) ∧
    archiveFirst.wellFormed ∧
    untarKernel archiveFirst "bzImage" "kernel.tar" = .panic :=
  ⟨by decide, ⟨[1, 2, 3], by decide, by decide⟩, by decide, by decide⟩

/-- C3 at the failing input `archiveOnly` (a `kernel.tar` entry and no
`bzImage` entry): the code panics on the nil `bzimage` at line 63 and never
reaches the missing-entry error of line 73. -/
theorem untarKernel_missing_bzimage_diverge :
    archiveOnly.wellFormed ∧
    countNamed "bzImage" archiveOnly.entries = 0 ∧
    untarKernel archiveOnly "bzImage" "kernel.tar" = .panic ∧
    untarKernel archiveOnly "bzImage" "kernel.tar" ≠ .err missingEntries := by
  decide

/-! ## Properties of `containersInitrd` -/

/-- When no copy fails the loop copies every buffer, in order, after what was
written before. -/
theorem containersInitrdLoop_ok (fault : Bytes → Option String) (cs : List Bytes)
    (h : ∀ c ∈ cs, fault c = none) :
    ∀ iw : Bytes,
      containersInitrdLoop fault cs iw = (cs.map Event.copy, .ok (iw ++ cs.flatten)) := by
  induction cs with
  | nil => intro iw; simp [containersInitrdLoop]
  | cons c cs ih =>
    intro iw
    have hc := h c (List.mem_cons_self c cs)
    have ih1 := ih (fun x hx => h x (List.mem_cons_of_mem c hx)) (iw ++ c)
    simp [containersInitrdLoop, initrdCopy, hc, ih1]

/-- When the copy of `c` fails after the copies of `front` succeeded, the loop
stops there with that error. -/
theorem containersInitrdLoop_fail (fault : Bytes → Option String) (front back : List Bytes)
    (c : Bytes) (e : String) (h : ∀ x ∈ front, fault x = none) (hc : fault c = some e) :
    ∀ iw : Bytes,
      containersInitrdLoop fault (front ++ c :: back) iw
        = ((front ++ [c]).map Event.copy, .error e) := by
  induction front with
  | nil => intro iw; simp [containersInitrdLoop, initrdCopy, hc]
  | cons x xs ih =>
    intro iw
    have hx := h x (List.mem_cons_self x xs)
    have ih1 := ih (fun y hy => h y (List.mem_cons_of_mem x hy)) (iw ++ x)
    simp [containersInitrdLoop, initrdCopy, hx, ih1]

/-- Cutting a concatenation at the lengths of its segments gives the segments
back. -/
theorem splitAtLengths_flatten (cs : List Bytes) :
    ∀ rest : Bytes, splitAtLengths (cs.map List.length) (cs.flatten ++ rest) = cs := by
  induction cs with
  | nil => intro rest; rfl
  | cons c cs ih =>
    intro rest
    simp only [List.map_cons, List.flatten_cons, splitAtLengths, List.append_assoc,
      List.take_left, List.drop_left, ih]

/-- C4: when no copy fails, `containersInitrd` copies every input in order and
returns exactly the back-to-back concatenation of the inputs: its length is the
sum of the input lengths, cutting it at the input lengths gives back every
input, and for the empty list it is empty. -/
theorem containersInitrd_concat (fault : Bytes → Option String) (containers : List Bytes)
    (h : ∀ c ∈ containers, fault c = none) :
    ∃ out : Bytes,
      containersInitrd fault containers = (containers.map Event.copy, .ok out) ∧
      out = containers.flatten ∧
      out.length = (containers.map List.length).sum ∧
      splitAtLengths (containers.map List.length) out = containers ∧
      (containers = [] → out = []) := by
  refine ⟨containers.flatten, ?_, rfl, List.length_flatten containers, ?_, ?_⟩
  · simp [containersInitrd, initrdNewWriter, initrdClose,
      containersInitrdLoop_ok fault containers h, Except.map]
  · have := splitAtLengths_flatten containers []
    rwa [List.append_nil] at this
  · intro hnil
    subst hnil
    rfl

/-- Witness of C4 on three buffers of lengths 0, 2 and 1. -/
theorem containersInitrd_concat_witness :
    ∃ out : Bytes,
      containersInitrd (fun _ => none) [[], [8, 9], [10]]
        = ([[], [8, 9], [10]].map Event.copy, .ok out) ∧
      out = [[], [8, 9], [10]].flatten ∧
      out.length = ([[], [8, 9], [10]].map List.length).sum ∧
      splitAtLengths ([[], [8, 9], [10]].map List.length) out = [[], [8, 9], [10]] ∧
      (([[], [8, 9], [10]] : List Bytes) = [] → out = []) :=
  containersInitrd_concat (fun _ => none) [[], [8, 9], [10]] (fun _ _ => rfl)

/-! ## Properties of `build` -/

/-- An event followed by the rest of the program. -/
theorem Step.emit_bind {α β : Type} (e : Event) (a : α) (f : α → Step β) :
    (Step.emit e a >>= f) = ⟨e :: (f a).trace, (f a).outcome⟩ := rfl

/-- A returning piece followed by the rest of the program. -/
theorem Step.ret_bind {α β : Type} (tr : List Event) (a : α) (f : α → Step β) :
    ((⟨tr, .ret a⟩ : Step α) >>= f) = ⟨tr ++ (f a).trace, (f a).outcome⟩ := rfl

/-- A piece ending in `log.Fatal*` ends the program. -/
theorem Step.fatal_bind {α β : Type} (tr : List Event) (msg : String) (f : α → Step β) :
    ((⟨tr, .fatal msg⟩ : Step α) >>= f) = ⟨tr, .fatal msg⟩ := rfl

/-- A piece ending in a panic ends the program. -/
theorem Step.panic_bind {α β : Type} (tr : List Event) (f : α → Step β) :
    ((⟨tr, .panic⟩ : Step α) >>= f) = ⟨tr, .panic⟩ := rfl

/-- A piece ending in a process replacement ends the program. -/
theorem Step.replaced_bind {α β : Type} (tr : List Event) (f : α → Step β) :
    ((⟨tr, .replaced⟩ : Step α) >>= f) = ⟨tr, .replaced⟩ := rfl

/-- The service loop succeeds when every service invocation does, and then
appends the service streams in manifest order. -/
theorem systemLoop_ok (w : World) (docker : String) :
    ∀ (l : List SystemSpec) (cs : List Bytes),
      (∀ s ∈ l, ∃ o, w.output docker (systemArgs s) = .ok o) →
      systemLoop w docker l cs
        = ⟨l.map (fun s => Event.output docker (systemArgs s)),
           .ret (cs ++ l.map (systemStream w docker))⟩ := by
  intro l
  induction l with
  | nil => intro cs _; simp [systemLoop, pure]
  | cons s l ih =>
    intro cs h
    obtain ⟨o, ho⟩ := h s (List.mem_cons_self s l)
    have ih1 := ih (cs ++ [o]) (fun x hx => h x (List.mem_cons_of_mem s hx))
    simp [systemLoop, Step.emit_bind, ho, ih1, systemStream]

/-- The service loop returns only when every service invocation succeeded. -/
theorem systemLoop_ret (w : World) (docker : String) :
    ∀ (l : List SystemSpec) (cs : List Bytes) (tr : List Event) (cs1 : List Bytes),
      systemLoop w docker l cs = ⟨tr, .ret cs1⟩ →
      ∀ s ∈ l, ∃ o, w.output docker (systemArgs s) = .ok o := by
  intro l
  induction l with
  | nil => intro cs tr cs1 _ s hs; simp at hs
  | cons x l ih =>
    intro cs tr cs1 h s hs
    rcases ho : w.output docker (systemArgs x) with err | o
    · simp [systemLoop, Step.emit_bind, ho, Step.fatalf] at h
    · simp only [systemLoop, Step.emit_bind, ho] at h
      rcases List.mem_cons.mp hs with rfl | hs
      · exact ⟨o, ho⟩
      · rcases hr : systemLoop w docker l (cs ++ [o]) with ⟨tr2, oc⟩
        rw [hr] at h
        simp only [Step.mk.injEq] at h
        obtain ⟨_, h2⟩ := h
        subst h2
        exact ih _ _ _ hr s hs

/-- The service loop causes docker invocations only. -/
theorem systemLoop_trace (w : World) (docker : String) :
    ∀ (l : List SystemSpec) (cs : List Bytes),
      ∀ e ∈ (systemLoop w docker l cs).trace, e.isFetch = true := by
  intro l
  induction l with
  | nil => intro cs e he; simp [systemLoop, pure] at he
  | cons x l ih =>
    intro cs e he
    rcases ho : w.output docker (systemArgs x) with err | o
    · simp [systemLoop, Step.emit_bind, ho, Step.fatalf] at he
      subst he
      rfl
    · simp only [systemLoop, Step.emit_bind, ho, List.mem_cons] at he
      rcases he with rfl | he
      · rfl
      · exact ih _ e he

/-- The result of lines 94-167 of `build` when every step succeeds. -/
theorem buildContainers_ok (w : World) (config : Bytes) (m : moby) (docker : String)
    (out bzimage ktar init : Bytes)
    (h1 : w.readFile "moby.yaml" = .ok config) (h2 : w.unmarshal config = .ok m)
    (h3 : w.lookPath "docker" = .ok docker)
    (h4 : w.output docker (kernelArgs m) = .ok out)
    (h5 : untarKernel (w.tarReader out) bzimageName ktarName = .ok bzimage ktar)
    (h6 : w.output docker (initArgs m) = .ok init)
    (h7 : ∀ s ∈ m.System, ∃ o, w.output docker (systemArgs s) = .ok o) :
    buildContainers w
      = ⟨Event.readFile "moby.yaml" :: Event.lookPath "docker"
          :: Event.output docker (kernelArgs m) :: Event.output docker (initArgs m)
          :: m.System.map (fun s => Event.output docker (systemArgs s)),
         .ret (bzimage, ktar :: init :: m.System.map (systemStream w docker))⟩ := by
  have hs := systemLoop_ok w docker m.System [ktar, init] h7
  simp [buildContainers, Step.emit_bind, h1, h2, h3, h4, h5, h6, hs, Step.ret_bind, pure]

/-- When lines 94-167 of `build` return, every step succeeded. -/
theorem buildContainers_ret (w : World) (tr : List Event) (bzimage : Bytes)
    (containers : List Bytes) (h : buildContainers w = ⟨tr, .ret (bzimage, containers)⟩) :
    ∃ (config : Bytes) (m : moby) (docker : String) (out ktar init : Bytes),
      w.readFile "moby.yaml" = .ok config ∧ w.unmarshal config = .ok m ∧
      w.lookPath "docker" = .ok docker ∧
      w.output docker (kernelArgs m) = .ok out ∧
      untarKernel (w.tarReader out) bzimageName ktarName = .ok bzimage ktar ∧
      w.output docker (initArgs m) = .ok init ∧
      (∀ s ∈ m.System, ∃ o, w.output docker (systemArgs s) = .ok o) := by
  rcases h1 : w.readFile "moby.yaml" with err | config
  · simp [buildContainers, Step.emit_bind, h1, Step.fatalf] at h
  rcases h2 : w.unmarshal config with err | m
  · simp [buildContainers, Step.emit_bind, h1, h2, Step.fatalf] at h
  rcases h3 : w.lookPath "docker" with err | docker
  · simp [buildContainers, Step.emit_bind, h1, h2, h3, Step.fatalf] at h
  rcases h4 : w.output docker (kernelArgs m) with err | out
  · simp [buildContainers, Step.emit_bind, h1, h2, h3, h4, Step.fatalf] at h
  rcases h5 : untarKernel (w.tarReader out) bzimageName ktarName with ⟨bz, kt⟩ | e | e | _
  · rcases h6 : w.output docker (initArgs m) with err | init
    · simp [buildContainers, Step.emit_bind, h1, h2, h3, h4, h5, h6, Step.fatalf] at h
    · rcases hs : systemLoop w docker m.System [kt, init] with ⟨tr2, oc⟩
      cases oc with
      | ret cs =>
        have h7 := systemLoop_ret w docker m.System [kt, init] tr2 cs hs
        have hb := buildContainers_ok w config m docker out bz kt init h1 h2 h3 h4 h5 h6 h7
        rw [hb] at h
        simp only [Step.mk.injEq, Outcome.ret.injEq, Prod.mk.injEq] at h
        obtain ⟨_, hbz, _⟩ := h
        subst hbz
        exact ⟨config, m, docker, out, kt, init, rfl, h2, rfl, h4, h5, h6, h7⟩
      | fatal msg =>
        simp [buildContainers, Step.emit_bind, h1, h2, h3, h4, h5, h6, hs,
          Step.fatal_bind] at h
      | panic =>
        simp [buildContainers, Step.emit_bind, h1, h2, h3, h4, h5, h6, hs,
          Step.panic_bind] at h
      | replaced =>
        simp [buildContainers, Step.emit_bind, h1, h2, h3, h4, h5, h6, hs,
          Step.replaced_bind] at h
  · simp [buildContainers, Step.emit_bind, h1, h2, h3, h4, h5, Step.fatalf] at h
  · simp [buildContainers, Step.emit_bind, h1, h2, h3, h4, h5, Step.fatalf] at h
  · simp [buildContainers, Step.emit_bind, h1, h2, h3, h4, h5] at h

/-- A property of all events of two pieces holds of all events of their
sequence. -/
theorem Step.bind_trace_forall {α β : Type} (P : Event → Prop) (x : Step α) (f : α → Step β)
    (hx : ∀ e ∈ x.trace, P e) (hf : ∀ a, ∀ e ∈ (f a).trace, P e) :
    ∀ e ∈ (x >>= f).trace, P e := by
  rcases x with ⟨tr, oc⟩
  cases oc with
  | ret a =>
    intro e he
    rw [Step.ret_bind] at he
    rcases List.mem_append.mp he with h | h
    · exact hx e h
    · exact hf a e h
  | fatal msg => exact hx
  | panic => exact hx
  | replaced => exact hx

/-- Lines 94-167 of `build` read a file, look up a path and run external
commands, nothing else. -/
theorem buildContainers_trace (w : World) :
    ∀ e ∈ (buildContainers w).trace, e.isFetch = true := by
  intro e he
  rcases h1 : w.readFile "moby.yaml" with err | config
  · simp [buildContainers, Step.emit_bind, h1, Step.fatalf] at he
    subst he; rfl
  rcases h2 : w.unmarshal config with err | m
  · simp [buildContainers, Step.emit_bind, h1, h2, Step.fatalf] at he
    subst he; rfl
  rcases h3 : w.lookPath "docker" with err | docker
  · simp [buildContainers, Step.emit_bind, h1, h2, h3, Step.fatalf] at he
    rcases he with rfl | rfl <;> rfl
  rcases h4 : w.output docker (kernelArgs m) with err | out
  · simp [buildContainers, Step.emit_bind, h1, h2, h3, h4, Step.fatalf] at he
    rcases he with rfl | rfl | rfl <;> rfl
  rcases h5 : untarKernel (w.tarReader out) bzimageName ktarName with ⟨bz, kt⟩ | x | x | _
  · rcases h6 : w.output docker (initArgs m) with err | init
    · simp [buildContainers, Step.emit_bind, h1, h2, h3, h4, h5, h6, Step.fatalf] at he
      rcases he with rfl | rfl | rfl | rfl <;> rfl
    · simp only [buildContainers, Step.emit_bind, h1, h2, h3, h4, h5, h6, List.mem_cons,
        List.nil_append, List.cons_append] at he
      rcases he with rfl | rfl | rfl | rfl | he
      · rfl
      · rfl
      · rfl
      · rfl
      · refine Step.bind_trace_forall (fun e => e.isFetch = true) _ _
          (systemLoop_trace w docker m.System [kt, init]) ?_ e he
        intro a e he
        simp [pure] at he
  · simp [buildContainers, Step.emit_bind, h1, h2, h3, h4, h5, Step.fatalf] at he
    rcases he with rfl | rfl | rfl <;> rfl
  · simp [buildContainers, Step.emit_bind, h1, h2, h3, h4, h5, Step.fatalf] at he
    rcases he with rfl | rfl | rfl <;> rfl
  · simp [buildContainers, Step.emit_bind, h1, h2, h3, h4, h5] at he
    rcases he with rfl | rfl | rfl <;> rfl

/-- The loop of `containersInitrd` calls `initrd.Copy` and nothing else. -/
theorem containersInitrdLoop_trace (fault : Bytes → Option String) :
    ∀ (cs : List Bytes) (iw : Bytes),
      ∀ e ∈ (containersInitrdLoop fault cs iw).1, ∃ file, e = Event.copy file := by
  intro cs
  induction cs with
  | nil => intro iw e he; simp [containersInitrdLoop] at he
  | cons c cs ih =>
    intro iw e he
    rcases hc : initrdCopy fault iw c with err | iw1
    · simp [containersInitrdLoop, hc] at he
      exact ⟨c, he⟩
    · simp only [containersInitrdLoop, hc, List.mem_cons] at he
      rcases he with rfl | he
      · exact ⟨c, rfl⟩
      · exact ih _ e he

/-- Lines 169-182 of `build` call `initrd.Copy` and write files, nothing
else. -/
theorem buildWrite_trace (w : World) (bzimage : Bytes) (containers : List Bytes) :
    ∀ e ∈ (buildWrite w bzimage containers).trace, e.isStore = true := by
  intro e he
  have hcopy : ∀ x ∈ (containersInitrd w.copyFault containers).1, x.isStore = true := by
    intro x hx
    obtain ⟨file, rfl⟩ := containersInitrdLoop_trace w.copyFault containers _ x hx
    rfl
  unfold buildWrite at he
  rcases hr : (containersInitrd w.copyFault containers).2 with err | initrd
  · simp only [hr] at he
    exact hcopy e he
  · simp only [hr, Step.ret_bind, Step.emit_bind] at he
    rcases List.mem_append.mp he with h | h
    · exact hcopy e h
    · rcases List.mem_cons.mp h with rfl | h
      · rfl
      · rcases hw1 : w.writeFile "initrd.img" initrd perm0644 with _ | err
        · simp only [hw1, Step.emit_bind] at h
          rcases List.mem_cons.mp h with rfl | h
          · rfl
          · rcases hw2 : w.writeFile "bzImage" bzimage perm0644 with _ | err
            · simp [hw2, pure] at h
            · simp [hw2, Step.fatalf] at h
        · simp [hw1, Step.fatalf] at h

/-- The function `build` never calls `syscall.Exec`. -/
theorem build_trace (w : World) : ∀ e ∈ (build w).trace, e.isExec = false := by
  unfold build
  refine Step.bind_trace_forall (fun e => e.isExec = false) _ _ ?_ ?_
  · intro e he
    have := buildContainers_trace w e he
    cases e <;> simp_all [Event.isFetch, Event.isExec]
  · rintro ⟨bz, cs⟩ e he
    have := buildWrite_trace w bz cs e he
    cases e <;> simp_all [Event.isStore, Event.isExec]

/-- The outcome of lines 94-167 of `build` decides whether they return. -/
theorem buildContainers_outcome (w : World) (bzimage : Bytes) (containers : List Bytes)
    (h : (buildContainers w).outcome = .ret (bzimage, containers)) :
    buildContainers w = ⟨(buildContainers w).trace, .ret (bzimage, containers)⟩ := by
  rcases hb : buildContainers w with ⟨tr, oc⟩
  rw [hb] at h
  simp only at h
  rw [h]

/-- A service invocation that succeeds yields the service's stream. -/
theorem systemStream_ok (w : World) (docker : String) (s : SystemSpec)
    (h : ∃ o, w.output docker (systemArgs s) = .ok o) :
    w.output docker (systemArgs s) = .ok (systemStream w docker s) := by
  obtain ⟨o, ho⟩ := h
  simp [systemStream, ho]

/-- C5: when every step of `build` up to the assembly succeeds on a manifest
with services `s_1 .. s_N`, the slice handed to `containersInitrd` has length
N+2 and is the companion archive returned by `untarKernel`, then the init
stream, then the stream of each service in manifest order (that of the service
at index `i` at index `i + 2`); and with the services permuted in the manifest
the segments after the first two are permuted in the same way. -/
theorem build_containers_order (w : World) (bzimage : Bytes) (containers : List Bytes)
    (h : (buildContainers w).outcome = .ret (bzimage, containers)) :
    ∃ (config : Bytes) (m : moby) (docker : String) (out ktar init : Bytes),
      w.readFile "moby.yaml" = .ok config ∧ w.unmarshal config = .ok m ∧
      w.lookPath "docker" = .ok docker ∧
      w.output docker (kernelArgs m) = .ok out ∧
      untarKernel (w.tarReader out) bzimageName ktarName = .ok bzimage ktar ∧
      w.output docker (initArgs m) = .ok init ∧
      (∀ s ∈ m.System, w.output docker (systemArgs s) = .ok (systemStream w docker s)) ∧
      containers.length = m.System.length + 2 ∧
      containers = ktar :: init :: m.System.map (systemStream w docker) ∧
      (∀ (i : Nat) (s : SystemSpec), m.System[i]? = some s →
        containers[i + 2]? = some (systemStream w docker s)) ∧
      (∀ services : List SystemSpec, services.Perm m.System →
        (buildContainers
            { w with unmarshal := fun _ => .ok { m with System := services } }).outcome
          = .ret (bzimage, ktar :: init :: services.map (systemStream w docker))) := by
  have hb := buildContainers_outcome w bzimage containers h
  obtain ⟨config, m, docker, out, ktar, init, h1, h2, h3, h4, h5, h6, h7⟩ :=
    buildContainers_ret w _ bzimage containers hb
  have hok := buildContainers_ok w config m docker out bzimage ktar init h1 h2 h3 h4 h5 h6 h7
  have hcs : containers = ktar :: init :: m.System.map (systemStream w docker) := by
    rw [hok] at h
    simp only [Outcome.ret.injEq, Prod.mk.injEq] at h
    exact h.2.symm
  refine ⟨config, m, docker, out, ktar, init, h1, h2, h3, h4, h5, h6,
    fun s hs => systemStream_ok w docker s (h7 s hs), ?_, hcs, ?_, ?_⟩
  · simp [hcs]
  · intro i s hs
    simp [hcs, List.getElem?_map, hs]
  · intro services hperm
    have h7p : ∀ s ∈ services, ∃ o, w.output docker (systemArgs s) = .ok o :=
      fun s hs => h7 s (hperm.subset hs)
    have := buildContainers_ok
      { w with unmarshal := fun _ => .ok { m with System := services } }
      config { m with System := services } docker out bzimage ktar init
      h1 rfl h3 h4 h5 h6 h7p
    rw [this]
    rfl

/-- Witness of C5 on `demoWorld`: the slice is the empty companion archive, the
init stream 8 9 and the stream 10 of the one service. -/
theorem build_containers_order_witness :
    (buildContainers demoWorld).outcome = .ret ([1, 2, 3], [[], [8, 9], [10]]) ∧
    ∃ (m : moby) (docker : String) (ktar init : Bytes),
      ([[], [8, 9], [10]] : List Bytes).length = m.System.length + 2 ∧
      ([[], [8, 9], [10]] : List Bytes)
        = ktar :: init :: m.System.map (systemStream demoWorld docker) := by
  refine ⟨by rfl, ?_⟩
  obtain ⟨_, m, docker, _, ktar, init, _, _, _, _, _, _, _, hlen, hcs, _⟩ :=
    build_containers_order demoWorld [1, 2, 3] [[], [8, 9], [10]] (by rfl)
  exact ⟨m, docker, ktar, init, hlen, hcs⟩

/-- Reading, looking up and running commands write no file. -/
theorem Event.written_of_isFetch (x : Event) (h : x.isFetch = true) : x.written = none := by
  cases x <;> first | rfl | simp [Event.isFetch] at h

/-- Reading, looking up and running commands copy no buffer. -/
theorem Event.copied_of_isFetch (x : Event) (h : x.isFetch = true) : x.copied = none := by
  cases x <;> first | rfl | simp [Event.isFetch] at h

/-- Copying buffers and writing files run no external command. -/
theorem Event.invocation_of_isStore (x : Event) (h : x.isStore = true) :
    x.invocation = none := by
  cases x <;> first | rfl | simp [Event.isStore] at h

/-- A list with an element at index `n` splits there. -/
theorem split_at_index (l : List Bytes) (n : Nat) (c : Bytes) (h : l[n]? = some c) :
    l = l.take n ++ c :: l.drop (n + 1) ∧ l.take (n + 1) = l.take n ++ [c] := by
  induction l generalizing n with
  | nil => simp at h
  | cons x xs ih =>
    cases n with
    | zero =>
      simp at h
      subst h
      simp
    | succ n =>
      simp only [List.getElem?_cons_succ] at h
      obtain ⟨h1, h2⟩ := ih n h
      constructor
      · simp only [List.take_succ_cons, List.drop_succ_cons, List.cons_append]
        rw [← h1]
      · simp only [List.take_succ_cons, List.cons_append]
        rw [h2]

/-- C6: when the copy of the `k`-th of `N` buffers fails (`1 ≤ k ≤ N`, the
copies before it succeeding), `containersInitrd` returns that error and no
buffer, it has copied the first `k` buffers only, and `build` then ends in
`log.Fatalf` having written neither `initrd.img` nor `bzImage`. -/
theorem containersInitrd_atomic (w : World) (containers : List Bytes) (k : Nat) (c : Bytes)
    (e : String) (hk : 1 ≤ k) (hkN : k ≤ containers.length)
    (hc : containers[k - 1]? = some c) (hfail : w.copyFault c = some e)
    (hprev : ∀ (j : Nat) (x : Bytes), j < k - 1 → containers[j]? = some x →
      w.copyFault x = none) :
    containersInitrd w.copyFault containers
      = ((containers.take k).map Event.copy, .error e) ∧
    (∀ bzimage : Bytes, buildWrite w bzimage containers
      = ⟨(containers.take k).map Event.copy, .fatal ("Failed to make initrd " ++ e)⟩) ∧
    (∀ bzimage : Bytes, (buildContainers w).outcome = .ret (bzimage, containers) →
      (build w).outcome = .fatal ("Failed to make initrd " ++ e) ∧
      (build w).trace.filterMap Event.written = [] ∧
      (build w).trace.filterMap Event.copied = containers.take k) := by
  obtain ⟨hsplit, htake⟩ := split_at_index containers (k - 1) c hc
  have hk1 : k - 1 + 1 = k := by omega
  rw [hk1] at hsplit htake
  have hfront : ∀ x ∈ containers.take (k - 1), w.copyFault x = none := by
    intro x hx
    obtain ⟨j, hj, hjx⟩ := List.getElem_of_mem hx
    have hjlt : j < k - 1 := by
      simp only [List.length_take] at hj
      omega
    apply hprev j x hjlt
    have : (containers.take (k - 1))[j]? = some x := by
      rw [List.getElem?_eq_getElem hj, hjx]
    rwa [List.getElem?_take_of_lt hjlt] at this
  have hloop := containersInitrdLoop_fail w.copyFault (containers.take (k - 1))
    (containers.drop k) c e hfront hfail []
  rw [← hsplit, ← htake] at hloop
  have hci : containersInitrd w.copyFault containers
      = ((containers.take k).map Event.copy, .error e) := by
    simp [containersInitrd, initrdNewWriter, hloop, Except.map]
  have hbw : ∀ bzimage : Bytes, buildWrite w bzimage containers
      = ⟨(containers.take k).map Event.copy, .fatal ("Failed to make initrd " ++ e)⟩ := by
    intro bzimage
    simp [buildWrite, hci]
  refine ⟨hci, hbw, ?_⟩
  intro bzimage hb
  have hbc := buildContainers_outcome w bzimage containers hb
  have hbuild : build w = ⟨(buildContainers w).trace ++ (containers.take k).map Event.copy,
      .fatal ("Failed to make initrd " ++ e)⟩ := by
    unfold build
    rw [hbc, Step.ret_bind]
    simp [hbw]
  have hfetchW : (buildContainers w).trace.filterMap Event.written = [] := by
    rw [List.filterMap_eq_nil_iff]
    intro x hx
    exact Event.written_of_isFetch x (buildContainers_trace w x hx)
  have hfetchC : (buildContainers w).trace.filterMap Event.copied = [] := by
    rw [List.filterMap_eq_nil_iff]
    intro x hx
    exact Event.copied_of_isFetch x (buildContainers_trace w x hx)
  refine ⟨by rw [hbuild], ?_, ?_⟩
  · rw [hbuild]
    simp only [List.filterMap_append, hfetchW, List.nil_append]
    rw [List.filterMap_eq_nil_iff]
    intro x hx
    obtain ⟨f, _, rfl⟩ := List.mem_map.mp hx
    rfl
  · rw [hbuild]
    simp only [List.filterMap_append, hfetchC, List.nil_append, List.filterMap_map]
    have : (Event.copied ∘ Event.copy) = (some : Bytes → Option Bytes) := by
      funext f; rfl
    rw [this, List.filterMap_some]

/-- Witness of C6 on `faultyWorld`, where the copy of the second of the three
buffers fails: the third is not copied and no file is written. -/
theorem containersInitrd_atomic_witness :
    (buildContainers faultyWorld).outcome = .ret ([1, 2, 3], [[], [8, 9], [10]]) ∧
    containersInitrd faultyWorld.copyFault [[], [8, 9], [10]]
      = ([Event.copy [], Event.copy [8, 9]], .error "read error") ∧
    (build faultyWorld).outcome = .fatal ("Failed to make initrd " ++ "read error") ∧
    (build faultyWorld).trace.filterMap Event.written = [] :=
  have h := containersInitrd_atomic faultyWorld [[], [8, 9], [10]] 2 [8, 9] "read error"
    (by decide) (by decide) (by rfl) (by rfl)
    (fun j x hj hx => by
      have hj0 : j = 0 := by omega
      subst hj0
      simp at hx
      subst hx
      rfl)
  ⟨by rfl, h.1, (h.2.2 [1, 2, 3] (by rfl)).1, (h.2.2 [1, 2, 3] (by rfl)).2.1⟩

/-- Appending a flag and a value per element, as the loops of lines 148-153 do,
appends the flattened flag-value pairs. -/
theorem foldl_flag (flag : String) (l : List String) :
    ∀ args : List String,
      l.foldl (fun args cap => args ++ [flag, cap]) args
        = args ++ l.flatMap (fun cap => [flag, cap]) := by
  induction l with
  | nil => intro args; simp
  | cons x xs ih =>
    intro args
    simp only [List.foldl_cons, ih, List.flatMap_cons, List.append_assoc]

/-- The arguments of a service invocation, laid out. -/
theorem systemArgs_eq (s : SystemSpec) :
    systemArgs s
      = ["run", "--rm", "-v", "/var/run/docker.sock:/var/run/docker.sock", riddler,
          s.Image, "/containers/" ++ s.Name]
        ++ s.CapDrop.flatMap (fun cap => ["--cap-drop", cap])
        ++ s.CapAdd.flatMap (fun cap => ["--cap-add", cap])
        ++ [s.Image] ++ s.Command := by
  simp only [systemArgs, foldl_flag]

/-- C7: when `build` runs to its end on a manifest with `N` services, its
external `docker` invocations are, in this order, one for `m.Kernel`, one for
`m.Init` and one per service in manifest order, `N + 2` in all; the invocation
of a service carries its image, the path `/containers/` followed by its name,
each `cap_drop` entry after `--cap-drop`, each `cap_add` entry after
`--cap-add`, the image again and its command. -/
theorem build_invocations (w : World) (h : (build w).outcome = .ret ()) :
    ∃ (config : Bytes) (m : moby) (docker : String),
      w.readFile "moby.yaml" = .ok config ∧ w.unmarshal config = .ok m ∧
      w.lookPath "docker" = .ok docker ∧
      (build w).trace.filterMap Event.invocation
        = (docker, ["run", "--rm", m.Kernel, "tar", "cf", "-", "bzImage", "kernel.tar"])
          :: (docker, ["run", "--rm", "-v", "/var/run/docker.sock:/var/run/docker.sock",
                docker2tar, m.Init])
          :: m.System.map (fun s => (docker,
              ["run", "--rm", "-v", "/var/run/docker.sock:/var/run/docker.sock", riddler,
                s.Image, "/containers/" ++ s.Name]
              ++ s.CapDrop.flatMap (fun cap => ["--cap-drop", cap])
              ++ s.CapAdd.flatMap (fun cap => ["--cap-add", cap])
              ++ [s.Image] ++ s.Command)) ∧
      ((build w).trace.filterMap Event.invocation).length = m.System.length + 2 := by
  rcases hb : buildContainers w with ⟨tr, oc⟩
  cases oc with
  | ret p =>
    obtain ⟨bzimage, containers⟩ := p
    obtain ⟨config, m, docker, out, ktar, init, h1, h2, h3, h4, h5, h6, h7⟩ :=
      buildContainers_ret w tr bzimage containers hb
    have hok := buildContainers_ok w config m docker out bzimage ktar init h1 h2 h3 h4 h5 h6 h7
    have hbuild : (build w).trace = (buildContainers w).trace
        ++ (buildWrite w bzimage (ktar :: init :: m.System.map (systemStream w docker))).trace := by
      unfold build
      rw [hok, Step.ret_bind]
    have hstore : (buildWrite w bzimage
        (ktar :: init :: m.System.map (systemStream w docker))).trace.filterMap
          Event.invocation = [] := by
      rw [List.filterMap_eq_nil_iff]
      intro x hx
      exact Event.invocation_of_isStore x (buildWrite_trace w bzimage _ x hx)
    have hinv : (build w).trace.filterMap Event.invocation
        = (docker, kernelArgs m) :: (docker, initArgs m)
          :: m.System.map (fun s => (docker, systemArgs s)) := by
      rw [hbuild, List.filterMap_append, hstore, hok]
      simp only [List.filterMap_cons, Event.invocation, List.filterMap_map, Function.comp_def,
        List.append_nil]
      rw [← List.filterMap_eq_map]
      rfl
    refine ⟨config, m, docker, h1, h2, h3, ?_, ?_⟩
    · rw [hinv]
      simp only [systemArgs_eq]
      rfl
    · rw [hinv]
      simp
  | fatal msg => simp [build, hb, Step.fatal_bind] at h
  | panic => simp [build, hb, Step.panic_bind] at h
  | replaced => simp [build, hb, Step.replaced_bind] at h

/-- Witness of C7 on `demoWorld`: three invocations, for `k:v`, `i:v` and the
service `svc`. -/
theorem build_invocations_witness :
    (build demoWorld).outcome = .ret () ∧
    ∃ (m : moby) (docker : String),
      (build demoWorld).trace.filterMap Event.invocation
        = (docker, ["run", "--rm", m.Kernel, "tar", "cf", "-", "bzImage", "kernel.tar"])
          :: (docker, ["run", "--rm", "-v", "/var/run/docker.sock:/var/run/docker.sock",
                docker2tar, m.Init])
          :: m.System.map (fun s => (docker,
              ["run", "--rm", "-v", "/var/run/docker.sock:/var/run/docker.sock", riddler,
                s.Image, "/containers/" ++ s.Name]
              ++ s.CapDrop.flatMap (fun cap => ["--cap-drop", cap])
              ++ s.CapAdd.flatMap (fun cap => ["--cap-add", cap])
              ++ [s.Image] ++ s.Command)) ∧
      ((build demoWorld).trace.filterMap Event.invocation).length = m.System.length + 2 := by
  refine ⟨by rfl, ?_⟩
  obtain ⟨_, m, docker, _, _, _, hinv, hlen⟩ := build_invocations demoWorld (by rfl)
  exact ⟨m, docker, hinv, hlen⟩

/-- The function `build` starts by reading the manifest file. -/
theorem build_trace_head (w : World) :
    ∃ rest, (build w).trace = Event.readFile "moby.yaml" :: rest := by
  have hc : ∃ rest, (buildContainers w).trace = Event.readFile "moby.yaml" :: rest := by
    simp only [buildContainers, Step.emit_bind]
    exact ⟨_, rfl⟩
  obtain ⟨rest, hrest⟩ := hc
  rcases hb : buildContainers w with ⟨tr, oc⟩
  rw [hb] at hrest
  simp only at hrest
  subst hrest
  cases oc with
  | ret p => exact ⟨_, by unfold build; rw [hb, Step.ret_bind]; rfl⟩
  | fatal msg => exact ⟨rest, by unfold build; rw [hb, Step.fatal_bind]⟩
  | panic => exact ⟨rest, by unfold build; rw [hb, Step.panic_bind]⟩
  | replaced => exact ⟨rest, by unfold build; rw [hb, Step.replaced_bind]⟩

/-- C8: with `run` as first argument `main` calls `syscall.Exec` and nothing
else, ending in the replaced process or, when the call fails, in `log.Fatalf`:
no event of `build` occurs, whereas `build` always starts by reading the
manifest. With no first argument or another one, `main` is `build` and never
calls `syscall.Exec`. -/
theorem main_dispatch (w : World) (osArgs : List String) :
    (osArgs[1]? = some "run" →
      (main w osArgs).trace = [Event.exec "./hyperkit.sh" [] w.environ] ∧
      (∀ e ∈ (main w osArgs).trace, e.isBuild = false) ∧
      (∃ rest, (build w).trace = Event.readFile "moby.yaml" :: rest) ∧
      ((w.exec "./hyperkit.sh" [] w.environ = none ∧ (main w osArgs).outcome = .replaced) ∨
       (∃ err, w.exec "./hyperkit.sh" [] w.environ = some err ∧
          (main w osArgs).outcome = .fatal "Could not run"))) ∧
    (osArgs[1]? ≠ some "run" →
      main w osArgs = build w ∧ ∀ e ∈ (main w osArgs).trace, e.isExec = false) := by
  constructor
  · intro harg
    have hlen : 2 ≤ osArgs.length := by
      obtain ⟨hlt, _⟩ := List.getElem?_eq_some.mp harg
      omega
    have hmain : main w osArgs = (run w >>= fun _ => build w) := by
      simp [main, hlen, harg]
    rcases hx : w.exec "./hyperkit.sh" [] w.environ with _ | err
    · have hrun : run w = ⟨[Event.exec "./hyperkit.sh" [] w.environ], .replaced⟩ := by
        simp [run, hx]
      rw [hmain, hrun, Step.replaced_bind]
      refine ⟨rfl, ?_, build_trace_head w, Or.inl ⟨rfl, rfl⟩⟩
      intro e he
      simp at he
      subst he
      rfl
    · have hrun : run w = ⟨[Event.exec "./hyperkit.sh" [] w.environ],
          .fatal "Could not run"⟩ := by
        simp [run, hx]
      rw [hmain, hrun, Step.fatal_bind]
      refine ⟨rfl, ?_, build_trace_head w, Or.inr ⟨err, rfl, rfl⟩⟩
      intro e he
      simp at he
      subst he
      rfl
  · intro harg
    have hmain : main w osArgs = build w := by
      simp only [main, harg, and_false, if_false]
      rfl
    rw [hmain]
    exact ⟨rfl, build_trace w⟩

/-- Witness of C8: with arguments `moby run` the process is replaced (on
`demoWorld`) or exits (on `noExecWorld`) without any build event, and with the
program name alone `main` is `build`. -/
theorem main_dispatch_witness :
    (main demoWorld ["moby", "run"]).trace = [Event.exec "./hyperkit.sh" [] demoWorld.environ] ∧
    (main demoWorld ["moby", "run"]).outcome = .replaced ∧
    (main noExecWorld ["moby", "run"]).outcome = .fatal "Could not run" ∧
    main demoWorld ["moby"] = build demoWorld ∧
    (∀ e ∈ (main demoWorld ["moby", "build"]).trace, e.isExec = false) :=
  ⟨((main_dispatch demoWorld ["moby", "run"]).1 rfl).1,
   by rfl, by rfl,
   ((main_dispatch demoWorld ["moby"]).2 (by decide)).1,
   ((main_dispatch demoWorld ["moby", "build"]).2 (by decide)).2⟩

end Moby
